import Mathlib

/-!
Verification of the go-memory-pattern teaching examples.

The repository consists of three Go files in package main:
`examples/types.go`, `examples/values-vs-pointers.go`, and
`examples/escape-analysis.go`.  This file gives a shallow embedding of
the record type and of the functions the claims are about, and proves
(or refutes) each claim against that embedding.

Modelling conventions:
* Go `float64` values stored in fields and accumulated by sums are
  modelled as exact rationals; all three average functions perform the
  same sequence of floating-point operations, so exact equalities
  between them transfer.  Division, the one operation that can produce
  a non-finite result here, is modelled by `goDiv`, which returns an
  element of `GoFloat` (a rational, or one of the non-finite IEEE
  values NaN / plus-or-minus infinity).
* Go `int64` and `int` are modelled as `Int`; the Go `%` operator
  truncates toward zero, which is `Int.tmod`.
* Pointers and mutation are modelled with an explicit store: `Heap`
  maps addresses to `Student` records, a `Ptr` is nil or an address,
  and the mutating functions are transformers of a `ProgState` that
  carries the heap together with the one package-level variable
  `globalStudent`.  Fresh allocation is modelled by passing the fresh
  address explicitly.
-/

/-- The `Student` record from `examples/types.go`:
`ID int64`, `Name string`, `Grade float64`, `Age int`. -/
structure Student where
  ID : Int
  Name : String
  Grade : ℚ
  Age : Int
  deriving Repr, DecidableEq

/-- Result of a Go `float64` operation: a finite value (modelled as an
exact rational) or one of the non-finite IEEE values. -/
inductive GoFloat where
  | finite (q : ℚ)
  | posInf
  | negInf
  | nan
  deriving Repr, DecidableEq

/-- Go `float64` division.  Division by zero yields NaN for a zero
numerator and a signed infinity otherwise; all other quotients are
finite. -/
def goDiv (a b : ℚ) : GoFloat :=
  if b = 0 then
    if a = 0 then GoFloat.nan
    else if 0 < a then GoFloat.posInf
    else GoFloat.negInf
  else GoFloat.finite (a / b)

/-- Addresses of heap cells holding `Student` records. -/
abbrev Addr := Nat

/-- The store: every address holds a `Student` record.  A Go `*Student`
that is not nil always refers to a valid record, so the store is total. -/
abbrev Heap := Addr → Student

/-- Write the record `s` into the cell at address `a`. -/
def Heap.write (h : Heap) (a : Addr) (s : Student) : Heap :=
  fun b => if b = a then s else h b

/-- A Go `*Student`: nil, or the address of a record. -/
inductive Ptr where
  | null
  | addr (a : Addr)
  deriving Repr, DecidableEq

/-- Dereference a pointer: nil dereferences to nothing. -/
def Ptr.deref (p : Ptr) (h : Heap) : Option Student :=
  match p with
  | Ptr.null => none
  | Ptr.addr a => some (h a)

/-- The mutable state the programs run in: the heap of `Student`
records plus the single package-level variable `globalStudent` from
`examples/escape-analysis.go` (line 93). -/
structure ProgState where
  heap : Heap
  globalStudent : Ptr

/-! ## Pure value functions (`examples/types.go`, `values-vs-pointers.go`) -/

/-- `calculateAverageStack` (`types.go` lines 27-41): fold the grades
into `total` while counting, return 0 on an empty slice, otherwise the
quotient. -/
def calculateAverageStack (students : List Student) : GoFloat :=
  let total : ℚ := students.foldl (fun acc s => acc + s.Grade) 0
  let count : Nat := students.length
  if count = 0 then GoFloat.finite 0
  else goDiv total count

/-- `createStudentByValue` (`types.go` lines 44-51). -/
def createStudentByValue (id : Int) (name : String) (grade : ℚ) : Student :=
  { ID := id
    Name := name
    Grade := grade
    Age := 18 + Int.tmod id 10 }

/-- `calculateAverageHeap` (`types.go` lines 58-71): build the
intermediate `grades` slice by repeated `append`, sum it, and divide by
its length with no guard against an empty input. -/
def calculateAverageHeap (students : List Student) : GoFloat :=
  let grades : List ℚ := students.foldl (fun acc s => acc ++ [s.Grade]) []
  let total : ℚ := grades.foldl (fun acc g => acc + g) 0
  goDiv total grades.length

/-- `calculateAverageOptimized` (`types.go` lines 89-103): identical to
`calculateAverageHeap` except that the `grades` slice is pre-allocated
with exact capacity, which does not change its contents. -/
def calculateAverageOptimized (students : List Student) : GoFloat :=
  let grades : List ℚ := students.foldl (fun acc s => acc ++ [s.Grade]) []
  let total : ℚ := grades.foldl (fun acc g => acc + g) 0
  goDiv total grades.length

/-- `modifyStudentValue` (`values-vs-pointers.go` lines 13-18): the
callee mutates its own copy of the record; the result is the final
state of that copy. -/
def modifyStudentValue (student : Student) : Student :=
  { student with Grade := 100, Name := "Modified " ++ student.Name }

/-- `calculateGPAValue` (`values-vs-pointers.go` lines 21-24). -/
def calculateGPAValue (student1 student2 student3 : Student) : GoFloat :=
  goDiv (student1.Grade + student2.Grade + student3.Grade) 3

/-- `createStudentCopy` (`values-vs-pointers.go` lines 27-33): copy the
template, then overwrite `Name` and `ID`. -/
def createStudentCopy (template : Student) (newName : String) (newID : Int) : Student :=
  { template with Name := newName, ID := newID }

/-- `processStudent` (`escape-analysis.go` lines 48-52): adds 10 to the
`Grade` of its own copy. -/
def processStudent (s : Student) : Student :=
  { s with Grade := s.Grade + 10 }

/-- `modifyGradesSlice` (`values-vs-pointers.go` lines 75-82): adds 5
to every element of the shared underlying array; the result is the new
contents of that array. -/
def modifyGradesSlice (grades : List ℚ) : List ℚ :=
  grades.map (fun g => g + 5)

/-! ## Pointer functions as state transformers -/

/-- `modifyStudentPointer` (`values-vs-pointers.go` lines 40-49): early
return on nil, otherwise set `Grade` to 100 and prepend `"Modified "`
to `Name` in the pointed-to record. -/
def modifyStudentPointer (student : Ptr) (σ : ProgState) : ProgState :=
  match student with
  | Ptr.null => σ
  | Ptr.addr a =>
      let s := σ.heap a
      { σ with heap := σ.heap.write a { s with Grade := 100, Name := "Modified " ++ s.Name } }

/-- `calculateGPAPointer` (`values-vs-pointers.go` lines 52-60): if any
argument is nil, return 0.0 without dereferencing; otherwise sum the
three grades and divide by 3.  The function performs no writes, so it
is embedded as a pure reader of the heap. -/
def calculateGPAPointer (student1 student2 student3 : Ptr) (h : Heap) : GoFloat :=
  match student1, student2, student3 with
  | Ptr.addr a1, Ptr.addr a2, Ptr.addr a3 =>
      goDiv ((h a1).Grade + (h a2).Grade + (h a3).Grade) 3
  | _, _, _ => GoFloat.finite 0

/-- `updateGradeInPlace` (`values-vs-pointers.go` lines 63-68): early
return on nil, otherwise set the `Grade` field of the pointed-to
record to `newGrade`. -/
def updateGradeInPlace (student : Ptr) (newGrade : ℚ) (σ : ProgState) : ProgState :=
  match student with
  | Ptr.null => σ
  | Ptr.addr a =>
      { σ with heap := σ.heap.write a { σ.heap a with Grade := newGrade } }

/-- `createStudentByPointer` (`types.go` lines 74-82): build the record,
store it in a fresh heap cell `a`, and return its address. -/
def createStudentByPointer (id : Int) (name : String) (grade : ℚ)
    (σ : ProgState) (a : Addr) : Ptr × ProgState :=
  let student : Student :=
    { ID := id
      Name := name
      Grade := grade
      Age := 18 + Int.tmod id 10 }
  (Ptr.addr a, { σ with heap := σ.heap.write a student })

/-- `escapesToHeap4` (`escape-analysis.go` lines 95-104): build the
record for Frank in a fresh heap cell `a` and store its address in the
package-level variable `globalStudent`.  This is the only assignment to
`globalStudent` in the repository. -/
def escapesToHeap4 (σ : ProgState) (a : Addr) : ProgState :=
  { heap := σ.heap.write a { ID := 6, Name := "Frank", Grade := 82, Age := 23 }
    globalStudent := Ptr.addr a }

/-- Go call-by-value: the caller holds its record at `argAddr`; the call
copies that record into the fresh cell `paramAddr` that models the
storage of the callee parameter, and the callee body acts on that copy
only. -/
def invokeByValue (body : Student → Student) (σ : ProgState)
    (argAddr paramAddr : Addr) : ProgState :=
  { σ with heap := σ.heap.write paramAddr (body (σ.heap argAddr)) }

/-- A concrete state used to instantiate theorems with hypotheses:
every cell holds Alice, `globalStudent` is nil. -/
def sampleState : ProgState :=
  { heap := fun _ => { ID := 1, Name := "Alice", Grade := 85, Age := 20 }
    globalStudent := Ptr.null }

/-- Concrete demonstration data from `demonstrateWhenToUseEach`
(`values-vs-pointers.go` lines 167-171). -/
def sampleStudents : List Student :=
  [{ ID := 1, Name := "Alice", Grade := 85, Age := 20 },
   { ID := 2, Name := "Bob", Grade := 92, Age := 21 },
   { ID := 3, Name := "Charlie", Grade := 78, Age := 19 }]

/-- Fuel-indexed while-loop: run `body` while `cond` holds, giving up
(`none`) when the fuel runs out.  This models the Go `for` loops of the
repository small-step, so that their termination is a theorem rather
than a by-product of the embedding. -/
def forLoop {α : Type} (fuel : Nat) (cond : α → Bool) (body : α → α) (s : α) : Option α :=
  match fuel with
  | 0 => none
  | Nat.succ fuel => if cond s then forLoop fuel cond body (body s) else some s

/-- The summation loop of `calculateAverageHeap` (`types.go` lines
66-68): index `i` and accumulator `total`, running while `i` is below
the length of the `grades` slice. -/
def sumGradesLoop (grades : List ℚ) : Option (Nat × ℚ) :=
  forLoop (grades.length + 1) (fun p => decide (p.1 < grades.length))
    (fun p => (p.1 + 1, p.2 + grades.getD p.1 0)) (0, 0)

/-- The bonus loop of `modifyGradesSlice` (`values-vs-pointers.go`
lines 78-80): `for i := range grades` adds 5 to `grades[i]`; the range
bound is the length of the slice at loop entry. -/
def bonusLoop (grades : List ℚ) : Option (Nat × List ℚ) :=
  forLoop (grades.length + 1) (fun p => decide (p.1 < grades.length))
    (fun p => (p.1 + 1, p.2.set p.1 (p.2.getD p.1 0 + 5))) (0, grades)

/-- The benchmark loop of `runPerformanceTest` (`types.go` lines
132-134): `for i := 0; i < iterations; i++` with `iterations = 50000`. -/
def perfTestLoop : Option Nat :=
  forLoop 50001 (fun i => decide (i < 50000)) (fun i => i + 1) 0

/-! ## Helper lemmas -/

theorem Heap.write_same (h : Heap) (a : Addr) (s : Student) :
    (h.write a s) a = s := by
  simp [Heap.write]

theorem Heap.write_other (h : Heap) (a b : Addr) (s : Student) (hba : b ≠ a) :
    (h.write a s) b = h b := by
  simp [Heap.write, hba]

theorem foldl_grade_sum (l : List Student) :
    ∀ init : ℚ, l.foldl (fun acc s => acc + s.Grade) init
      = init + (l.map Student.Grade).sum := by
  induction l with
  | nil => intro init; simp
  | cons s rest ih => intro init; simp [List.foldl_cons, ih, add_assoc]

theorem foldl_append_grades (l : List Student) :
    ∀ acc : List ℚ, l.foldl (fun acc s => acc ++ [s.Grade]) acc
      = acc ++ l.map Student.Grade := by
  induction l with
  | nil => intro acc; simp
  | cons s rest ih => intro acc; simp [List.foldl_cons, ih]

theorem foldl_rat_sum (l : List ℚ) :
    ∀ init : ℚ, l.foldl (fun acc g => acc + g) init = init + l.sum := by
  induction l with
  | nil => intro init; simp
  | cons g rest ih => intro init; simp [List.foldl_cons, ih, add_assoc]

theorem forLoop_isSome {α : Type} (cond : α → Bool) (body : α → α) (μ : α → Nat)
    (hdec : ∀ s, cond s = true → μ (body s) < μ s) :
    ∀ (fuel : Nat) (s : α), μ s < fuel → (forLoop fuel cond body s).isSome = true := by
  intro fuel
  induction fuel with
  | zero => intro s hs; exact absurd hs (Nat.not_lt_zero _)
  | succ n ih =>
      intro s hs
      cases hc : cond s with
      | false => simp [forLoop, hc]
      | true =>
          have hmu : μ (body s) < n :=
            Nat.lt_of_lt_of_le (hdec s hc) (Nat.lt_succ_iff.mp hs)
          simpa [forLoop, hc] using ih (body s) hmu

/-! ## Claim theorems -/

/-- C1: for every `Student` value `s`, calling `modifyStudentValue s`,
`createStudentCopy s newName newID`, or `processStudent s` by value
leaves every field (`ID`, `Name`, `Grade`, `Age`) of the record of the
caller unchanged: the callee works on a copy at a distinct address
`b`, so the record at the argument address `a` is equal, field for
field, to what it was before the call. -/
theorem valueCalls_preserve_caller (σ : ProgState) (a b : Addr) (hab : a ≠ b)
    (newName : String) (newID : Int) :
    (invokeByValue modifyStudentValue σ a b).heap a = σ.heap a ∧
    (invokeByValue (fun t => createStudentCopy t newName newID) σ a b).heap a = σ.heap a ∧
    (invokeByValue processStudent σ a b).heap a = σ.heap a := by
  refine ⟨?_, ?_, ?_⟩ <;> simp [invokeByValue, Heap.write, hab]

/-- Witness for C1 at a concrete state and addresses 0 and 1. -/
theorem valueCalls_preserve_caller_witness :
    (0 : Addr) ≠ 1 ∧
    ((invokeByValue modifyStudentValue sampleState 0 1).heap 0 = sampleState.heap 0 ∧
     (invokeByValue (fun t => createStudentCopy t "Alice Clone" 2) sampleState 0 1).heap 0
        = sampleState.heap 0 ∧
     (invokeByValue processStudent sampleState 0 1).heap 0 = sampleState.heap 0) :=
  ⟨by decide, valueCalls_preserve_caller sampleState 0 1 (by decide) "Alice Clone" 2⟩

/-- C2: for every record address `a` (every non-nil pointer is
`Ptr.addr a` for some `a`), after `modifyStudentPointer (Ptr.addr a)`
the pointed-to record has `Grade` 100 and `Name` equal to
`"Modified "` prepended to its old name (with `ID` and `Age`
untouched), and every pointer `q` aliasing the same record observes
exactly this updated record when dereferenced. -/
theorem modifyStudentPointer_updates_all_aliases (σ : ProgState) (a : Addr)
    (q : Ptr) (hq : q = Ptr.addr a) :
    Ptr.deref q (modifyStudentPointer (Ptr.addr a) σ).heap =
      some { σ.heap a with Grade := 100, Name := "Modified " ++ (σ.heap a).Name } := by
  subst hq
  simp [Ptr.deref, modifyStudentPointer, Heap.write]

/-- Witness for C2: the alias `Ptr.addr 0` observes the update at
address 0 of the sample state. -/
theorem modifyStudentPointer_updates_all_aliases_witness :
    Ptr.addr 0 = Ptr.addr 0 ∧
    Ptr.deref (Ptr.addr 0) (modifyStudentPointer (Ptr.addr 0) sampleState).heap =
      some { sampleState.heap 0 with Grade := 100, Name := "Modified " ++ (sampleState.heap 0).Name } :=
  ⟨rfl, modifyStudentPointer_updates_all_aliases sampleState 0 (Ptr.addr 0) rfl⟩

/-- C3, counterexample: on the empty list the three averages do NOT
agree.  `calculateAverageStack` guards against an empty slice and
returns 0, while `calculateAverageHeap` divides the zero total by the
zero length, which in Go is `0.0/0.0 = NaN`, not 0. -/
theorem averages_disagree_on_empty :
    calculateAverageStack [] ≠ calculateAverageHeap ([] : List Student) := by
  decide

/-- C3, amended: for every NON-EMPTY list of students the three
allocation strategies compute the same average:
`calculateAverageStack`, `calculateAverageHeap`, and
`calculateAverageOptimized` agree. -/
theorem averages_agree_on_nonempty (students : List Student) (hne : students ≠ []) :
    calculateAverageStack students = calculateAverageHeap students ∧
    calculateAverageHeap students = calculateAverageOptimized students := by
  constructor
  · have hlen : students.length ≠ 0 := fun h => hne (List.length_eq_zero.mp h)
    simp only [calculateAverageStack, calculateAverageHeap, foldl_grade_sum,
      foldl_append_grades, foldl_rat_sum, List.nil_append, List.length_map,
      zero_add, if_neg hlen]
  · rfl

/-- Witness for the amended C3 at the three-student demo list. -/
theorem averages_agree_on_nonempty_witness :
    sampleStudents ≠ [] ∧
    (calculateAverageStack sampleStudents = calculateAverageHeap sampleStudents ∧
     calculateAverageHeap sampleStudents = calculateAverageOptimized sampleStudents) :=
  ⟨by decide, averages_agree_on_nonempty sampleStudents (by decide)⟩

/-- C4: with a nil argument, `modifyStudentPointer` and
`updateGradeInPlace` return early leaving the whole program state
(every `Student` record and `globalStudent`) unchanged, and
`calculateGPAPointer` with a nil argument in any position returns 0.0
without dereferencing; all three return normally, so no failure is
propagated. -/
theorem nil_guards_return_early (σ : ProgState) (g : ℚ) (p1 p2 p3 : Ptr) (h : Heap) :
    modifyStudentPointer Ptr.null σ = σ ∧
    updateGradeInPlace Ptr.null g σ = σ ∧
    calculateGPAPointer Ptr.null p2 p3 h = GoFloat.finite 0 ∧
    calculateGPAPointer p1 Ptr.null p3 h = GoFloat.finite 0 ∧
    calculateGPAPointer p1 p2 Ptr.null h = GoFloat.finite 0 := by
  refine ⟨rfl, rfl, ?_, ?_, ?_⟩ <;> cases p1 <;> cases p2 <;> cases p3 <;> rfl

/-- C5: `calculateAverageStack` returns the arithmetic mean of the
`Grade` fields (sum of grades divided by number of students) on a
non-empty list and 0 on the empty list.  The embedding is a pure
function of the list, so the input list is not modified. -/
theorem calculateAverageStack_is_mean (students : List Student) :
    calculateAverageStack students =
      if students.length = 0 then GoFloat.finite 0
      else GoFloat.finite ((students.map Student.Grade).sum / students.length) := by
  unfold calculateAverageStack
  by_cases hlen : students.length = 0
  · simp [hlen]
  · rw [if_neg hlen, if_neg hlen, foldl_grade_sum]
    unfold goDiv
    rw [if_neg (by exact_mod_cast hlen)]
    simp

/-- C6: for every record address `a` (every non-nil pointer is
`Ptr.addr a` for some `a`) and grade `g`, `updateGradeInPlace` sets
the `Grade` field of the pointed-to record to `g` and leaves `ID`,
`Name`, and `Age` unchanged: the cell afterwards is exactly the old
record with only `Grade` replaced. -/
theorem updateGradeInPlace_only_grade (σ : ProgState) (a : Addr) (g : ℚ) :
    (updateGradeInPlace (Ptr.addr a) g σ).heap a = { σ.heap a with Grade := g } := by
  simp [updateGradeInPlace, Heap.write]

/-- C7: the record stored by `createStudentByPointer` and read back
through the returned pointer is field-for-field the record returned by
`createStudentByValue`, and both compute `Age` as
`18 + (id mod 10)` with the truncating Go remainder. -/
theorem constructors_equivalent (id : Int) (name : String) (grade : ℚ)
    (σ : ProgState) (a : Addr) :
    Ptr.deref (createStudentByPointer id name grade σ a).1
        (createStudentByPointer id name grade σ a).2.heap
      = some (createStudentByValue id name grade) ∧
    (createStudentByValue id name grade).Age = 18 + Int.tmod id 10 := by
  constructor
  · simp [createStudentByPointer, createStudentByValue, Ptr.deref, Heap.write]
  · rfl

/-- C8: reading three records through non-nil pointers,
`calculateGPAPointer` returns the same value as `calculateGPAValue`
applied to the three records, namely the sum of the three `Grade`
fields divided by 3.  `calculateGPAPointer` performs no writes (it is
embedded as a pure reader of the heap), so all three records are left
unchanged. -/
theorem gpa_pointer_refines_value (h : Heap) (a1 a2 a3 : Addr) :
    calculateGPAPointer (Ptr.addr a1) (Ptr.addr a2) (Ptr.addr a3) h
      = calculateGPAValue (h a1) (h a2) (h a3) ∧
    calculateGPAValue (h a1) (h a2) (h a3)
      = GoFloat.finite (((h a1).Grade + (h a2).Grade + (h a3).Grade) / 3) := by
  constructor
  · rfl
  · unfold calculateGPAValue goDiv
    rw [if_neg (by norm_num)]

/-- C9: `escapesToHeap4` is the only operation that writes
`globalStudent`: after it runs, `globalStudent` is the (non-nil)
address of a cell holding the record with `ID` 6, `Name` `"Frank"`,
`Grade` 82 and `Age` 23; every other state-transforming function of
the embedding (`modifyStudentPointer`, `updateGradeInPlace`,
`createStudentByPointer`, and every call-by-value invocation) leaves
`globalStudent` exactly as it was. -/
theorem globalStudent_written_only_by_escapesToHeap4 (σ τ : ProgState) (a b c : Addr)
    (p : Ptr) (g : ℚ) (id : Int) (name : String) (grade : ℚ) (body : Student → Student) :
    (escapesToHeap4 σ a).globalStudent = Ptr.addr a ∧
    (escapesToHeap4 σ a).heap a = { ID := 6, Name := "Frank", Grade := 82, Age := 23 } ∧
    (modifyStudentPointer p τ).globalStudent = τ.globalStudent ∧
    (updateGradeInPlace p g τ).globalStudent = τ.globalStudent ∧
    ((createStudentByPointer id name grade τ b).2).globalStudent = τ.globalStudent ∧
    (invokeByValue body τ b c).globalStudent = τ.globalStudent := by
  refine ⟨rfl, ?_, ?_, ?_, rfl, rfl⟩
  · simp [escapesToHeap4, Heap.write]
  · cases p <;> rfl
  · cases p <;> rfl

/-- C10: every loop in the repository is bounded, so every embedded
function is total.  The three loops cited by the claim are modelled
small-step with explicit fuel: the summation loop of
`calculateAverageHeap` and the bonus loop of `modifyGradesSlice`
finish within one step more than the slice length, and the benchmark
loop of `runPerformanceTest` finishes within its constant 50000
iterations; all remaining functions are structurally recursive folds
over finite lists and are total by construction. -/
theorem all_loops_terminate (grades gs : List ℚ) :
    (sumGradesLoop grades).isSome = true ∧
    (bonusLoop gs).isSome = true ∧
    (perfTestLoop).isSome = true := by
  refine ⟨?_, ?_, ?_⟩
  · exact forLoop_isSome _ _ (fun p => grades.length - p.1)
      (fun s hs => by
        have h1 : s.1 < grades.length := of_decide_eq_true hs
        show grades.length - (s.1 + 1) < grades.length - s.1
        omega)
      (grades.length + 1) (0, 0)
      (by show grades.length - 0 < grades.length + 1; omega)
  · exact forLoop_isSome _ _ (fun p => gs.length - p.1)
      (fun s hs => by
        have h1 : s.1 < gs.length := of_decide_eq_true hs
        show gs.length - (s.1 + 1) < gs.length - s.1
        omega)
      (gs.length + 1) (0, gs)
      (by show gs.length - 0 < gs.length + 1; omega)
  · exact forLoop_isSome _ _ (fun i => 50000 - i)
      (fun s hs => by
        have h1 : s < 50000 := of_decide_eq_true hs
        show 50000 - (s + 1) < 50000 - s
        omega)
      50001 0
      (by show 50000 - 0 < 50001; omega)
